import Mathlib

/-!
# Shared-memory handshake protocol: verification of the spec against the code

Shallow embedding of the APU/RPU shared-memory packet-exchange programs
(`src/linux/applications/*.c`, `src/firmware/rpu/**/*.c`).  Machine words are
`Nat` with explicit `% 2^32` where C's `uint32_t` overflow matters; shared
memory is modelled word-addressed (`Nat → Nat`); straight-line protocol code
is modelled as state transformers that also emit an event trace, so ordering
claims are about the trace of an execution.
-/

namespace RTSIA

/-! ## 32-bit arithmetic helpers (C `uint32_t` semantics) -/

/-- Truncation to 32 bits. -/
def u32 (n : Nat) : Nat := n % 2 ^ 32

/-- C `uint32_t` addition (wraps mod `2^32`). -/
def u32add (a b : Nat) : Nat := (u32 a + u32 b) % 2 ^ 32

/-- C `uint32_t` subtraction (wraps mod `2^32`). -/
def u32sub (a b : Nat) : Nat := (u32 a + 2 ^ 32 - u32 b) % 2 ^ 32

/-! ## Timestamp deltas, as each site of the source computes them -/

/-- The wraparound-corrected delta of `store_result`
(`rpu_perf_test.c` and `rpu_receiver_ddr.c`, lines 127-132):
`if (rpu_ts >= apu_ts) delta = rpu_ts - apu_ts;
 else delta = (0xFFFFFFFF - apu_ts) + rpu_ts + 1;` in `uint32_t` arithmetic. -/
def storeResultDelta (apu_ts rpu_ts : Nat) : Nat :=
  if u32 apu_ts ≤ u32 rpu_ts then u32sub rpu_ts apu_ts
  else u32add (u32add (u32sub 0xFFFFFFFF apu_ts) rpu_ts) 1

/-- The delta of `send_packet` in `apu_sender_tcm.c` (lines 235-240):
`if (ts_end >= ts_start) *delta_ticks = ts_end - ts_start;
 else *delta_ticks = (0xFFFF - ts_start) + ts_end;` in `uint32_t` arithmetic. -/
def tcmSenderDelta (ts_start ts_end : Nat) : Nat :=
  if u32 ts_start ≤ u32 ts_end then u32sub ts_end ts_start
  else u32add (u32sub 0xFFFF ts_start) ts_end

/-- The delta the spec's words prescribe (spec §4.3): `t_later - t_earlier` on
no-wraparound, else `(MAX - t_earlier) + t_later + 1` with `MAX = 0xFFFFFFFF`.
Stated over plain naturals for timestamps below `2^32`. -/
def specDelta (t_later t_earlier : Nat) : Nat :=
  if t_earlier ≤ t_later then t_later - t_earlier
  else (0xFFFFFFFF - t_earlier) + t_later + 1

/-! ## Protocol sentinel constants, per file -/

namespace ApuSenderDdr
/-- `apu_sender_ddr.c` line 29. -/
def MAGIC_START : Nat := 0x0F0F0F0F
/-- `apu_sender_ddr.c` line 30. -/
def MAGIC_ACK : Nat := 0xF0F0F0F0
/-- `apu_sender_ddr.c` line 31. -/
def MAGIC_DONE : Nat := 0xFFFFFFFF
/-- `apu_sender_ddr.c` line 32. -/
def MAGIC_READY : Nat := 0xAAAAAAAA
end ApuSenderDdr

namespace RpuReceiverDdr
/-- `rpu_receiver_ddr.c` / `rpu_perf_test.c` line 23. -/
def MAGIC_START : Nat := 0x0F0F0F0F
/-- `rpu_receiver_ddr.c` / `rpu_perf_test.c` line 24. -/
def MAGIC_ACK : Nat := 0xF0F0F0F0
/-- `rpu_receiver_ddr.c` / `rpu_perf_test.c` line 25. -/
def MAGIC_DONE : Nat := 0xFFFFFFFF
/-- `rpu_receiver_ddr.c` / `rpu_perf_test.c` line 26. -/
def MAGIC_READY : Nat := 0xAAAAAAAA
/-- Validation marker written by `store_result` (line 140). -/
def VALID_MARKER : Nat := 0xA5A5A5A5
/-- `rpu_receiver_ddr.c` / `rpu_perf_test.c` line 40. -/
def MAX_RESULTS : Nat := 10000
end RpuReceiverDdr

namespace ApuCoherency
/-- `apu_coherency_test.c` line 9: the value the APU writes to word 0. -/
def MAGIC_VALUE : Nat := 0xF0F0F0F0
/-- The response the APU polls word 1 for (`apu_coherency_test.c` lines 38-43). -/
def RESPONSE : Nat := 0xDEADBEEF
end ApuCoherency

namespace RpuCoherency
/-- `rpu_coherency_test.c` line 6: the value the RPU compares word 0 against. -/
def MAGIC_VALUE : Nat := 0xCAFEBABE
/-- The response the RPU writes to word 1 on a match (line 27). -/
def RESPONSE : Nat := 0xDEADBEEF
end RpuCoherency

/-! ## Results log of the DDR receivers (`rpu_perf_test.c`, `rpu_receiver_ddr.c`)

`results_mem` is a word array: word 0 is the header count, record `i`
occupies words `1 + 5*i .. 1 + 5*i + 4`.  `result_count` is the static
counter the firmware keeps beside it. -/

namespace RpuReceiverDdr

/-- The receiver's results region (word-addressed buffer) together with the
static `result_count`. -/
structure ResultsLog where
  buf : Nat → Nat
  count : Nat

/-- `store_result(pkt_size, apu_ts, rpu_ts)` (`rpu_perf_test.c` /
`rpu_receiver_ddr.c` lines 122-143): return early when
`result_count >= MAX_RESULTS`; otherwise write the five record words at
`offset = 1 + result_count*5` and increment `result_count`.  The five distinct
stores are modelled by their net effect on the word array. -/
def store_result (L : ResultsLog) (pkt_size apu_ts rpu_ts : Nat) : ResultsLog :=
  if MAX_RESULTS ≤ L.count then L
  else
    let delta := storeResultDelta apu_ts rpu_ts
    let off := 1 + L.count * 5
    { buf := fun j =>
        if j = off then pkt_size
        else if j = off + 1 then apu_ts
        else if j = off + 2 then rpu_ts
        else if j = off + 3 then delta
        else if j = off + 4 then VALID_MARKER
        else L.buf j,
      count := L.count + 1 }

/-- The results area as `main` leaves it before the run: zeroed
(`memset(..., 0, ...)`) with `result_count = 0`. -/
def initLog : ResultsLog := ⟨fun _ => 0, 0⟩

/-- A whole run of appends: `store_result` once per received packet, in order. -/
def appendAll (L : ResultsLog) (ps : List (Nat × Nat × Nat)) : ResultsLog :=
  ps.foldl (fun acc p => store_result acc p.1 p.2.1 p.2.2) L

theorem store_result_count (L : ResultsLog) (p a r : Nat) :
    (store_result L p a r).count =
      if MAX_RESULTS ≤ L.count then L.count else L.count + 1 := by
  unfold store_result
  split <;> rfl

theorem store_result_marker (L : ResultsLog) (p a r : Nat) (h : L.count < MAX_RESULTS) :
    (store_result L p a r).buf (1 + L.count * 5 + 4) = VALID_MARKER := by
  unfold store_result
  rw [if_neg (Nat.not_le.mpr h)]
  simp only
  rw [if_neg (by omega), if_neg (by omega), if_neg (by omega), if_neg (by omega)]
  simp

theorem store_result_oob (L : ResultsLog) (p a r j : Nat)
    (hj : 5 * MAX_RESULTS + 1 ≤ j) :
    (store_result L p a r).buf j = L.buf j := by
  unfold store_result
  split
  · rfl
  · next h =>
    have hc : L.count < MAX_RESULTS := Nat.lt_of_not_le h
    simp only [MAX_RESULTS] at hj hc
    simp only
    rw [if_neg (by omega), if_neg (by omega), if_neg (by omega),
      if_neg (by omega), if_neg (by omega)]

theorem appendAll_count (ps : List (Nat × Nat × Nat)) :
    ∀ L : ResultsLog, L.count ≤ MAX_RESULTS →
      (appendAll L ps).count = min (L.count + ps.length) MAX_RESULTS := by
  induction ps with
  | nil =>
    intro L hL
    simp only [appendAll, List.foldl_nil, List.length_nil, Nat.add_zero]
    omega
  | cons p ps ih =>
    intro L hL
    have hstep := store_result_count L p.1 p.2.1 p.2.2
    have : appendAll L (p :: ps) = appendAll (store_result L p.1 p.2.1 p.2.2) ps := rfl
    rw [this]
    by_cases hfull : MAX_RESULTS ≤ L.count
    · rw [if_pos hfull] at hstep
      rw [ih _ (by omega)]
      simp only [List.length_cons]
      omega
    · rw [if_neg hfull] at hstep
      rw [ih _ (by omega)]
      simp only [List.length_cons]
      omega

theorem appendAll_oob (ps : List (Nat × Nat × Nat)) :
    ∀ (L : ResultsLog) (j : Nat), 5 * MAX_RESULTS + 1 ≤ j →
      (appendAll L ps).buf j = L.buf j := by
  induction ps with
  | nil => intro L j _; rfl
  | cons p ps ih =>
    intro L j hj
    have : appendAll L (p :: ps) = appendAll (store_result L p.1 p.2.1 p.2.2) ps := rfl
    rw [this, ih _ _ hj, store_result_oob _ _ _ _ _ hj]

end RpuReceiverDdr

/-! ## Events

Protocol code is straight-line; each memory/cache/timer operation appends an
event, so ordering claims are claims about the resulting trace. -/

/-- One observable operation of a protocol routine.  `invRange`/`flushRange`
are the cache-management calls (byte base offset and byte length within the
shared region), `readWord`/`writeWord` accesses to shared words (word index
and value), `copyPayload` the sender's `memcpy` into the payload area,
`barrier` a `dsb`/`__sync_synchronize`, `timerRead` a read of the TTC
counter, `append` a `store_result` call, `sleep` a `usleep`. -/
inductive Ev where
  | invRange (base len : Nat)
  | flushRange (base len : Nat)
  | readWord (idx val : Nat)
  | writeWord (idx val : Nat)
  | copyPayload (len : Nat)
  | barrier
  | timerRead (val : Nat)
  | append (size apu rpu : Nat)
  | sleep (us : Nat)
deriving DecidableEq

/-- Events the claim C2 orders the timestamp capture after: cache
invalidations and the memory barrier. -/
def Ev.invOrBarrier : Ev → Bool
  | .invRange _ _ => true
  | .barrier => true
  | _ => false

/-- `true` iff in `l` no invalidation or barrier occurs after the first
timer read — i.e. the timestamp is captured only once all invalidations and
the barrier are done. -/
def mgmtPrecedesTimer : List Ev → Bool
  | [] => true
  | .timerRead _ :: rest => rest.all fun e => !e.invOrBarrier
  | _ :: rest => mgmtPrecedesTimer rest

/-- Control-word stores (writes of shared word 0). -/
def Ev.isCtrlWrite : Ev → Bool
  | .writeWord 0 _ => true
  | _ => false

/-- Reads of a shared-memory word (the only way a sender can observe the
receiver). -/
def Ev.isSharedRead : Ev → Bool
  | .readWord _ _ => true
  | _ => false

/-! ## DDR shared-memory layout

`shared_mem` word 0 = control word, word 1 = `packet_size`, word 2 =
`apu_timestamp`, word 3 reserved; the payload bytes start at
`&shared_mem[4]` (byte offset 16). -/

/-- The DDR shared control block and payload (payload bytes addressed from
offset 0 of the payload area). -/
structure Shared where
  ctrl : Nat
  packetSize : Nat
  apuTs : Nat
  reserved : Nat
  data : Nat → Nat

/-! ## DDR receiver (`rpu_receiver_ddr.c` / `rpu_perf_test.c`) -/

namespace RpuReceiverDdr

/-- Receiver-side machine: the shared region, the results log, the current
TTC counter value, and the trace of events so far. -/
structure RxMachine where
  sh : Shared
  log : ResultsLog
  timer : Nat
  tr : List Ev

/-- `Xil_DCacheInvalidateRange(shared_mem + base, len)` — trace only. -/
def rxInvalidate (base len : Nat) (m : RxMachine) : RxMachine :=
  { m with tr := m.tr ++ [.invRange base len] }

/-- `__asm__("dsb sy")`. -/
def rxBarrier (m : RxMachine) : RxMachine :=
  { m with tr := m.tr ++ [.barrier] }

/-- Read `shared_mem[0]` (the control word). -/
def rxReadCtrl (m : RxMachine) : Nat × RxMachine :=
  (m.sh.ctrl, { m with tr := m.tr ++ [.readWord 0 m.sh.ctrl] })

/-- Read `shared_mem[1]` (`packet_size`). -/
def rxReadSize (m : RxMachine) : Nat × RxMachine :=
  (m.sh.packetSize, { m with tr := m.tr ++ [.readWord 1 m.sh.packetSize] })

/-- Read `shared_mem[2]` (`apu_timestamp`). -/
def rxReadTs (m : RxMachine) : Nat × RxMachine :=
  (m.sh.apuTs, { m with tr := m.tr ++ [.readWord 2 m.sh.apuTs] })

/-- `read_timer()` (`Xil_In32(TTC0_CNT_VAL)`). -/
def rxTimer (m : RxMachine) : Nat × RxMachine :=
  (m.timer, { m with tr := m.tr ++ [.timerRead m.timer] })

/-- `store_result(...)` on the machine: update the log, record the append. -/
def rxAppend (size apu rpu : Nat) (m : RxMachine) : RxMachine :=
  { m with log := store_result m.log size apu rpu,
           tr := m.tr ++ [.append size apu rpu] }

/-- `shared_mem[0] = v`. -/
def rxWriteCtrl (v : Nat) (m : RxMachine) : RxMachine :=
  { m with sh := { m.sh with ctrl := v }, tr := m.tr ++ [.writeWord 0 v] }

/-- `flush_control_word()` — `Xil_DCacheFlushRange(shared_mem, 64)`. -/
def rxFlushCtrl (m : RxMachine) : RxMachine :=
  { m with tr := m.tr ++ [.flushRange 0 64] }

/-- The body run on observing `MAGIC_START`
(`rpu_receiver_ddr.c` lines 182-231 / `rpu_perf_test.c` lines 183-232):
invalidate the first 256 bytes of metadata, read `packet_size` and
`apu_timestamp`, invalidate `packet_size` bytes of payload at byte offset 16
(`&shared_mem[4]`), barrier, read the timer, `store_result`, write
`MAGIC_ACK`, flush the control word. -/
def receiverHandleStart (m : RxMachine) : RxMachine :=
  let m := rxInvalidate 0 256 m
  let p := rxReadSize m
  let q := rxReadTs p.2
  let m := rxInvalidate 16 p.1 q.2
  let m := rxBarrier m
  let t := rxTimer m
  let m := rxAppend p.1 q.1 t.1 t.2
  let m := rxWriteCtrl MAGIC_ACK m
  rxFlushCtrl m

/-- One iteration of the polling loop (`receiver_loop`, lines 171-235):
invalidate the control word (one cache line), read it; on `MAGIC_DONE`
terminate, on `MAGIC_START` run `receiverHandleStart`, otherwise continue.
Returns the machine and whether the loop breaks. -/
def receiverPollStep (m : RxMachine) : RxMachine × Bool :=
  let m := rxInvalidate 0 64 m
  let c := rxReadCtrl m
  if c.1 = MAGIC_DONE then (c.2, true)
  else if c.1 = MAGIC_START then (receiverHandleStart c.2, false)
  else (c.2, false)

theorem receiverPollStep_start (m : RxMachine) (h : m.sh.ctrl = MAGIC_START) :
    receiverPollStep m =
      (receiverHandleStart
        { m with tr := m.tr ++ [.invRange 0 64] ++ [.readWord 0 MAGIC_START] },
        false) := by
  unfold receiverPollStep rxInvalidate rxReadCtrl
  simp [h, MAGIC_START, MAGIC_DONE]

end RpuReceiverDdr

/-! ## Bounded ACK polling (`wait_for_ack` / `wait_for_done`)

Both poll loops have the same body:
`while (elapsed < timeout) { if (<shared word> == TARGET) return 0;
usleep(1); elapsed++; } return -1;`.  `obs i` is the value the `i`-th poll
reads from the shared word (the other core may change it between polls). -/

/-- The poll loop from iteration `elapsed`, with `fuel = timeout - elapsed`
iterations left. -/
def pollWordAux (target : Nat) (obs : Nat → Nat) (elapsed : Nat) : Nat → Int
  | 0 => -1
  | fuel + 1 =>
    if obs elapsed = target then 0
    else pollWordAux target obs (elapsed + 1) fuel

/-- The whole bounded poll: `0` when the target value is observed within
`timeout` polls, `-1` otherwise. -/
def pollWord (target : Nat) (obs : Nat → Nat) (timeout : Nat) : Int :=
  pollWordAux target obs 0 timeout

theorem pollWordAux_eq_zero_iff (target : Nat) (obs : Nat → Nat) :
    ∀ fuel elapsed, pollWordAux target obs elapsed fuel = 0 ↔
      ∃ i, i < fuel ∧ obs (elapsed + i) = target := by
  intro fuel
  induction fuel with
  | zero =>
    intro elapsed
    simp [pollWordAux]
  | succ n ih =>
    intro elapsed
    unfold pollWordAux
    by_cases h : obs elapsed = target
    · simp only [h, if_pos rfl]
      constructor
      · intro _
        exact ⟨0, Nat.succ_pos n, by simpa using h⟩
      · intro _
        rfl
    · rw [if_neg h, ih]
      constructor
      · rintro ⟨i, hi, hobs⟩
        exact ⟨i + 1, by omega, by rw [show elapsed + (i + 1) = elapsed + 1 + i by omega]; exact hobs⟩
      · rintro ⟨i, hi, hobs⟩
        match i, hobs with
        | 0, hobs => exact absurd (by simpa using hobs) h
        | j + 1, hobs =>
          exact ⟨j, by omega, by rw [show elapsed + 1 + j = elapsed + (j + 1) by omega]; exact hobs⟩

theorem pollWord_eq_zero_iff (target : Nat) (obs : Nat → Nat) (timeout : Nat) :
    pollWord target obs timeout = 0 ↔ ∃ i, i < timeout ∧ obs i = target := by
  unfold pollWord
  rw [pollWordAux_eq_zero_iff]
  simp

/-- A poll that does not return `0` returns `-1` (the loop cannot exit any
other way). -/
theorem pollWord_eq_zero_or_neg_one (target : Nat) (obs : Nat → Nat) :
    ∀ timeout elapsed, pollWordAux target obs elapsed timeout = 0 ∨
      pollWordAux target obs elapsed timeout = -1 := by
  intro timeout
  induction timeout with
  | zero => intro elapsed; right; rfl
  | succ n ih =>
    intro elapsed
    unfold pollWordAux
    by_cases h : obs elapsed = target
    · left; rw [if_pos h]
    · rw [if_neg h]; exact ih (elapsed + 1)

namespace ApuSenderDdr

/-- `wait_for_ack(timeout_us)` (`apu_sender_ddr.c` lines 212-225): poll
`shared_mem[0]` for `MAGIC_ACK`, at most `timeout_us` iterations. -/
def wait_for_ack (obs : Nat → Nat) (timeout_us : Nat) : Int :=
  pollWord MAGIC_ACK obs timeout_us

end ApuSenderDdr

/-! ## DDR sender (`apu_sender_ddr.c`) -/

namespace ApuSenderDdr

/-- Sender-side machine over the DDR shared region. -/
structure TxMachine where
  sh : Shared
  tr : List Ev

/-- `memcpy((void *)&shared_mem[4], payload, size)`. -/
def txCopy (payload : Nat → Nat) (size : Nat) (m : TxMachine) : TxMachine :=
  { m with
    sh := { m.sh with data := fun i => if i < size then payload i else m.sh.data i },
    tr := m.tr ++ [.copyPayload size] }

/-- `shared_mem[1] = size`. -/
def txWriteSize (v : Nat) (m : TxMachine) : TxMachine :=
  { m with sh := { m.sh with packetSize := v }, tr := m.tr ++ [.writeWord 1 v] }

/-- `shared_mem[2] = ts`. -/
def txWriteTs (v : Nat) (m : TxMachine) : TxMachine :=
  { m with sh := { m.sh with apuTs := v }, tr := m.tr ++ [.writeWord 2 v] }

/-- `shared_mem[3] = 0`. -/
def txWriteReserved (v : Nat) (m : TxMachine) : TxMachine :=
  { m with sh := { m.sh with reserved := v }, tr := m.tr ++ [.writeWord 3 v] }

/-- `__sync_synchronize()`. -/
def txBarrier (m : TxMachine) : TxMachine := { m with tr := m.tr ++ [.barrier] }

/-- `ts = read_timer()`: `ts` is the counter value the read returns. -/
def txTimer (ts : Nat) (m : TxMachine) : TxMachine :=
  { m with tr := m.tr ++ [.timerRead ts] }

/-- `shared_mem[0] = v`. -/
def txWriteCtrl (v : Nat) (m : TxMachine) : TxMachine :=
  { m with sh := { m.sh with ctrl := v }, tr := m.tr ++ [.writeWord 0 v] }

/-- The write phase of `send_packet` (`apu_sender_ddr.c` lines 230-251):
copy the payload when `size > 0`, write `packet_size`, read the timer and
write the timestamp, zero the reserved word, barrier, then announce the
packet with `MAGIC_START`. -/
def sendWritePhase (m : TxMachine) (size : Nat) (payload : Nat → Nat)
    (ts : Nat) : TxMachine :=
  let m := if 0 < size then txCopy payload size m else m
  let m := txWriteSize size m
  let m := txTimer ts m
  let m := txWriteTs ts m
  let m := txWriteReserved 0 m
  let m := txBarrier m
  txWriteCtrl MAGIC_START m

/-- `send_packet` (`apu_sender_ddr.c` lines 230-260): the write phase, then
`wait_for_ack(10000)`; `0` on ACK, `-1` on timeout.  After the ACK the
sender writes nothing further — there is no IDLE reset in this variant. -/
def send_packet (m : TxMachine) (size : Nat) (payload : Nat → Nat)
    (ts : Nat) (obs : Nat → Nat) : TxMachine × Int :=
  (sendWritePhase m size payload ts, wait_for_ack obs 10000)

end ApuSenderDdr

/-! ## TCM shared structure (`TCM_Protocol`, both TCM applications)

Word layout: `command` (word 0), `packet_size` (word 1), `apu_timestamp`
(word 2), `rpu_timestamp` (word 3), `status` (word 4), padding, then the
4096-byte `data` payload. -/

/-- The `TCM_Protocol` struct. -/
structure TcmProto where
  command : Nat
  packetSize : Nat
  apuTs : Nat
  rpuTs : Nat
  status : Nat
  data : Nat → Nat

/-- A TCM sender machine: the mapped `TCM_Protocol` plus its event trace. -/
structure TcmMachine where
  proto : TcmProto
  tr : List Ev

/-- `memcpy((void *)tcm_proto->data, payload, size)`. -/
def tcmCopy (payload : Nat → Nat) (size : Nat) (m : TcmMachine) : TcmMachine :=
  { m with
    proto := { m.proto with data := fun i => if i < size then payload i else m.proto.data i },
    tr := m.tr ++ [.copyPayload size] }

/-- `tcm_proto->packet_size = size`. -/
def tcmWriteSize (v : Nat) (m : TcmMachine) : TcmMachine :=
  { m with proto := { m.proto with packetSize := v }, tr := m.tr ++ [.writeWord 1 v] }

/-- `tcm_proto->apu_timestamp = ts`. -/
def tcmWriteApuTs (v : Nat) (m : TcmMachine) : TcmMachine :=
  { m with proto := { m.proto with apuTs := v }, tr := m.tr ++ [.writeWord 2 v] }

/-- `tcm_proto->command = v`. -/
def tcmWriteCommand (v : Nat) (m : TcmMachine) : TcmMachine :=
  { m with proto := { m.proto with command := v }, tr := m.tr ++ [.writeWord 0 v] }

/-- `__sync_synchronize()`. -/
def tcmBarrier (m : TcmMachine) : TcmMachine := { m with tr := m.tr ++ [.barrier] }

/-- `read_timer()` returning counter value `ts`. -/
def tcmTimer (ts : Nat) (m : TcmMachine) : TcmMachine :=
  { m with tr := m.tr ++ [.timerRead ts] }

/-- `usleep(us)`. -/
def tcmSleep (us : Nat) (m : TcmMachine) : TcmMachine :=
  { m with tr := m.tr ++ [.sleep us] }

/-! ## TCM sender without ACK wait (`apu_sender_tcm.c`) -/

namespace ApuSenderTcm

/-- `apu_sender_tcm.c` line 52. -/
def CMD_IDLE : Nat := 0x00000000
/-- `apu_sender_tcm.c` line 53. -/
def CMD_PROCESS : Nat := 0x12345678
/-- `apu_sender_tcm.c` line 54. -/
def CMD_SHUTDOWN : Nat := 0xDEADBEEF
/-- `apu_sender_tcm.c` line 57. -/
def STATUS_READY : Nat := 0xAAAAAAAA
/-- `apu_sender_tcm.c` line 58. -/
def STATUS_BUSY : Nat := 0xBBBBBBBB
/-- `apu_sender_tcm.c` line 59. -/
def STATUS_DONE : Nat := 0xCCCCCCCC

/-- `send_packet(size, payload, &delta_ticks)` (`apu_sender_tcm.c` lines
203-249): reject sizes above 4096; copy the payload when `size > 0`; write
`packet_size`; read the timer (`ts_start`) and write `apu_timestamp`;
barrier; write `CMD_PROCESS`; read the timer again (`ts_end`); compute
`delta_ticks` from the two local timer reads; `usleep(100)`; reset
`command` to `CMD_IDLE`; return 0.  Note: this variant never reads
`command` or `status` back — it takes no observation of the receiver at
all. -/
def send_packet (m : TcmMachine) (size : Nat) (payload : Nat → Nat)
    (ts_start ts_end : Nat) : TcmMachine × Int × Nat :=
  if 4096 < size then (m, -1, 0)
  else
    let m := if 0 < size then tcmCopy payload size m else m
    let m := tcmWriteSize size m
    let m := tcmTimer ts_start m
    let m := tcmWriteApuTs ts_start m
    let m := tcmBarrier m
    let m := tcmWriteCommand CMD_PROCESS m
    let m := tcmTimer ts_end m
    let delta := tcmSenderDelta ts_start ts_end
    let m := tcmSleep 100 m
    let m := tcmWriteCommand CMD_IDLE m
    (m, 0, delta)

end ApuSenderTcm

/-! ## TCM sender with ACK wait and results drain (`rpu_receiver_tcm.c` —
despite its path this file is the Linux APU application of the TCM variant) -/

namespace TcmApp

/-- `rpu_receiver_tcm.c` line 65. -/
def CMD_IDLE : Nat := 0x00000000
/-- `rpu_receiver_tcm.c` line 66. -/
def CMD_PROCESS : Nat := 0x12345678
/-- `rpu_receiver_tcm.c` line 67. -/
def CMD_SHUTDOWN : Nat := 0x87654321
/-- `rpu_receiver_tcm.c` line 70. -/
def STATUS_READY : Nat := 0xAAAAAAAA
/-- `rpu_receiver_tcm.c` line 71. -/
def STATUS_BUSY : Nat := 0xBBBBBBBB
/-- `rpu_receiver_tcm.c` line 72. -/
def STATUS_DONE : Nat := 0xCCCCCCCC
/-- `rpu_receiver_tcm.c` line 27. -/
def MAX_RESULTS : Nat := 1000
/-- The validity sentinel `read_results` compares against (line 293). -/
def VALID_MARKER : Nat := 0xA5A5A5A5

/-- `wait_for_done(timeout_us)` (`rpu_receiver_tcm.c` lines 204-217): poll
`tcm_proto->status` for `STATUS_DONE`, at most `timeout_us` iterations. -/
def wait_for_done (obs : Nat → Nat) (timeout_us : Nat) : Int :=
  pollWord STATUS_DONE obs timeout_us

/-- `send_packet(size, payload)` (`rpu_receiver_tcm.c` lines 230-268):
reject sizes above 4096; copy the payload when `size > 0`; write
`packet_size`; read the timer and write `apu_timestamp`; barrier; write
`CMD_PROCESS`; then `wait_for_done(10000)` — on timeout return `-1`
without touching `command`, on ACK reset `command` to `CMD_IDLE` and
return 0. -/
def send_packet (m : TcmMachine) (size : Nat) (payload : Nat → Nat)
    (ts : Nat) (obs : Nat → Nat) : TcmMachine × Int :=
  if 4096 < size then (m, -1)
  else
    let m := if 0 < size then tcmCopy payload size m else m
    let m := tcmWriteSize size m
    let m := tcmTimer ts m
    let m := tcmWriteApuTs ts m
    let m := tcmBarrier m
    let m := tcmWriteCommand CMD_PROCESS m
    if wait_for_done obs 10000 = 0 then (tcmWriteCommand CMD_IDLE m, 0)
    else (m, -1)

/-- `read_results(fp)`'s drain loop (`rpu_receiver_tcm.c` lines 284-302),
from record `i` with `remaining` records left: read the five words of each
record, skip it when its marker is not `0xA5A5A5A5`, emit it otherwise.
Returns (emitted records, word indices read). -/
def drainFrom (mem : Nat → Nat) : Nat → Nat → List (Nat × Nat × Nat × Nat) × List Nat
  | 0, _ => ([], [])
  | remaining + 1, i =>
    let off := 1 + i * 5
    let rest := drainFrom mem remaining (i + 1)
    if mem (off + 4) = VALID_MARKER then
      ((mem off, mem (off + 1), mem (off + 2), mem (off + 3)) :: rest.1,
        [off, off + 1, off + 2, off + 3, off + 4] ++ rest.2)
    else
      (rest.1, [off, off + 1, off + 2, off + 3, off + 4] ++ rest.2)

/-- `read_results(fp)` (`rpu_receiver_tcm.c` lines 273-307): read the header
count (word 0); when it is 0 or above `MAX_RESULTS`, report the run as
invalid and return `-1` without reading any record slot; otherwise drain
`count` records and return 0.  Result: (return code, emitted records, word
indices read). -/
def read_results (mem : Nat → Nat) : Int × List (Nat × Nat × Nat × Nat) × List Nat :=
  let count := mem 0
  if count = 0 ∨ MAX_RESULTS < count then (-1, [], [0])
  else
    let d := drainFrom mem count 0
    (0, d.1, 0 :: d.2)

end TcmApp

/-! ## Coherence test pair (`apu_coherency_test.c`, `rpu_coherency_test.c`) -/

/-- The APU side's send (`apu_coherency_test.c` line 33): write its
`MAGIC_VALUE` into shared word 0. -/
def apuCoherencyWrite (mem : Nat → Nat) : Nat → Nat :=
  fun i => if i = 0 then ApuCoherency.MAGIC_VALUE else mem i

/-- One iteration of the RPU loop body (`rpu_coherency_test.c` lines 18-35):
when shared word 0 equals the RPU's `MAGIC_VALUE`, write the `0xDEADBEEF`
response into word 1 and reset word 0; otherwise leave memory unchanged. -/
def rpuCoherencyStep (mem : Nat → Nat) : Nat → Nat :=
  if mem 0 = RpuCoherency.MAGIC_VALUE then
    fun i => if i = 0 then 0 else if i = 1 then RpuCoherency.RESPONSE else mem i
  else mem

/-! ## The per-size iteration loops of `run_experiment`
(`apu_sender_ddr.c` lines 310-319 and `rpu_receiver_tcm.c` lines 360-368):
one `send_packet` per iteration; a `0` return increments `total_packets`,
a failure increments `failed_packets`; either way the loop moves on to the
next iteration — there is no retry. -/

/-- The DDR sender's success/failure counters after running one
`send_packet` per schedule in `scheds` (the `i`-th schedule giving what
the `i`-th packet's ACK polls read). -/
def run_iters (timeout : Nat) (scheds : List (Nat → Nat)) : Nat × Nat :=
  scheds.foldl
    (fun tf obs =>
      if ApuSenderDdr.wait_for_ack obs timeout = 0 then (tf.1 + 1, tf.2)
      else (tf.1, tf.2 + 1))
    (0, 0)

/-- The TCM app's iteration loop (`rpu_receiver_tcm.c` lines 360-368): one
`TcmApp.send_packet` per schedule, threading the machine; returns the final
machine and the (`total_packets`, `failed_packets`) counters. -/
def tcmRunIters (size : Nat) (payload : Nat → Nat) (ts : Nat)
    (m : TcmMachine) (scheds : List (Nat → Nat)) : TcmMachine × Nat × Nat :=
  scheds.foldl
    (fun acc obs =>
      if (TcmApp.send_packet acc.1 size payload ts obs).2 = 0 then
        ((TcmApp.send_packet acc.1 size payload ts obs).1, acc.2.1 + 1, acc.2.2)
      else ((TcmApp.send_packet acc.1 size payload ts obs).1, acc.2.1, acc.2.2 + 1))
    (m, 0, 0)

/-! ## Claim theorems (first batch) -/

/-- **C1.** The TCM sender's wraparound branch (`apu_sender_tcm.c` line 239)
does not compute the spec's wrap-corrected delta: at
`ts_start = 0xFFFFFFFF - 2` (the claim's `MAX-2`) and `ts_end = 1` it yields
`65539`, while the spec formula — and `store_result` on the receiver side —
yields `4`. -/
theorem c1_tcm_delta_bug :
    tcmSenderDelta 4294967293 1 = 65539 ∧
    specDelta 1 4294967293 = 4 ∧
    storeResultDelta 4294967293 1 = 4 := by
  refine ⟨?_, ?_, ?_⟩ <;> decide

/-- **C10.** A `store_result` call made when `result_count` is already at (or
above) `MAX_RESULTS` leaves the entire results-log state — buffer and counter
— exactly unchanged. -/
theorem c10_store_result_full_frame (L : RpuReceiverDdr.ResultsLog)
    (p a r : Nat) (h : RpuReceiverDdr.MAX_RESULTS ≤ L.count) :
    RpuReceiverDdr.store_result L p a r = L := by
  unfold RpuReceiverDdr.store_result
  rw [if_pos h]

/-- Witness for C10 at a concrete full log. -/
theorem c10_store_result_full_frame_witness :
    RpuReceiverDdr.MAX_RESULTS ≤ (RpuReceiverDdr.ResultsLog.mk (fun _ => 0) 10000).count ∧
    RpuReceiverDdr.store_result (RpuReceiverDdr.ResultsLog.mk (fun _ => 0) 10000) 64 7 9 =
      RpuReceiverDdr.ResultsLog.mk (fun _ => 0) 10000 :=
  ⟨by decide, c10_store_result_full_frame _ 64 7 9 (by decide)⟩

/-- **C4.** Appending more than `MAX_RESULTS` packets to the zeroed log leaves
the count capped at `MAX_RESULTS`, and no word at or beyond the capacity
boundary (word `1 + 5*MAX_RESULTS` onwards, i.e. any slot index `≥
MAX_RESULTS`) is ever written. -/
theorem c4_results_log_bound (ps : List (Nat × Nat × Nat))
    (h : RpuReceiverDdr.MAX_RESULTS < ps.length) :
    (RpuReceiverDdr.appendAll RpuReceiverDdr.initLog ps).count =
      RpuReceiverDdr.MAX_RESULTS ∧
    ∀ j, 5 * RpuReceiverDdr.MAX_RESULTS + 1 ≤ j →
      (RpuReceiverDdr.appendAll RpuReceiverDdr.initLog ps).buf j = 0 := by
  constructor
  · rw [RpuReceiverDdr.appendAll_count ps RpuReceiverDdr.initLog (by simp [RpuReceiverDdr.initLog])]
    simp only [RpuReceiverDdr.initLog]
    omega
  · intro j hj
    exact RpuReceiverDdr.appendAll_oob ps RpuReceiverDdr.initLog j hj

/-- Witness for C4: a run of 10001 packets (one more than capacity). -/
theorem c4_results_log_bound_witness :
    RpuReceiverDdr.MAX_RESULTS <
      (List.replicate 10001 ((64 : Nat), (7 : Nat), (9 : Nat))).length ∧
    (RpuReceiverDdr.appendAll RpuReceiverDdr.initLog
        (List.replicate 10001 ((64 : Nat), (7 : Nat), (9 : Nat)))).count =
      RpuReceiverDdr.MAX_RESULTS := by
  have h : RpuReceiverDdr.MAX_RESULTS <
      (List.replicate 10001 ((64 : Nat), (7 : Nat), (9 : Nat))).length := by
    rw [List.length_replicate]; decide
  exact ⟨h, (c4_results_log_bound _ h).1⟩

/-- **C2.** On observing `START`, the DDR receiver performs, in this order:
invalidate the metadata region (256 bytes), read `packet_size` and the
sender timestamp, invalidate the payload region sized to `packet_size`,
barrier, and only then read the timer (never before an invalidation or the
barrier), then append a result record, write `ACK` and flush the control
word. -/
theorem c2_receiver_start_order (m : RpuReceiverDdr.RxMachine)
    (h : m.sh.ctrl = RpuReceiverDdr.MAGIC_START) :
    ((RpuReceiverDdr.receiverPollStep m).1.tr =
        m.tr ++ [.invRange 0 64, .readWord 0 RpuReceiverDdr.MAGIC_START,
          .invRange 0 256, .readWord 1 m.sh.packetSize, .readWord 2 m.sh.apuTs,
          .invRange 16 m.sh.packetSize, .barrier, .timerRead m.timer,
          .append m.sh.packetSize m.sh.apuTs m.timer,
          .writeWord 0 RpuReceiverDdr.MAGIC_ACK, .flushRange 0 64]) ∧
    mgmtPrecedesTimer ((RpuReceiverDdr.receiverPollStep m).1.tr.drop m.tr.length) = true ∧
    (RpuReceiverDdr.receiverPollStep m).1.log =
      RpuReceiverDdr.store_result m.log m.sh.packetSize m.sh.apuTs m.timer ∧
    (RpuReceiverDdr.receiverPollStep m).1.sh.ctrl = RpuReceiverDdr.MAGIC_ACK ∧
    (RpuReceiverDdr.receiverPollStep m).2 = false := by
  have hstep := RpuReceiverDdr.receiverPollStep_start m h
  have h1 : (RpuReceiverDdr.receiverPollStep m).1.tr =
      m.tr ++ [.invRange 0 64, .readWord 0 RpuReceiverDdr.MAGIC_START,
        .invRange 0 256, .readWord 1 m.sh.packetSize, .readWord 2 m.sh.apuTs,
        .invRange 16 m.sh.packetSize, .barrier, .timerRead m.timer,
        .append m.sh.packetSize m.sh.apuTs m.timer,
        .writeWord 0 RpuReceiverDdr.MAGIC_ACK, .flushRange 0 64] := by
    rw [hstep]
    unfold RpuReceiverDdr.receiverHandleStart RpuReceiverDdr.rxInvalidate
      RpuReceiverDdr.rxReadSize RpuReceiverDdr.rxReadTs RpuReceiverDdr.rxBarrier
      RpuReceiverDdr.rxTimer RpuReceiverDdr.rxAppend RpuReceiverDdr.rxWriteCtrl
      RpuReceiverDdr.rxFlushCtrl
    simp
  refine ⟨h1, ?_, ?_, ?_, ?_⟩
  · rw [h1, List.drop_left]
    rfl
  · rw [hstep]
    rfl
  · rw [hstep]
    rfl
  · rw [hstep]

/-- Witness for C2 at a concrete machine observing `START`. -/
theorem c2_receiver_start_order_witness :
    (RpuReceiverDdr.RxMachine.mk ⟨RpuReceiverDdr.MAGIC_START, 64, 7, 0, fun _ => 0⟩
        ⟨fun _ => 0, 0⟩ 9 []).sh.ctrl = RpuReceiverDdr.MAGIC_START ∧
    (RpuReceiverDdr.receiverPollStep
        (RpuReceiverDdr.RxMachine.mk ⟨RpuReceiverDdr.MAGIC_START, 64, 7, 0, fun _ => 0⟩
          ⟨fun _ => 0, 0⟩ 9 [])).1.sh.ctrl = RpuReceiverDdr.MAGIC_ACK ∧
    mgmtPrecedesTimer ((RpuReceiverDdr.receiverPollStep
        (RpuReceiverDdr.RxMachine.mk ⟨RpuReceiverDdr.MAGIC_START, 64, 7, 0, fun _ => 0⟩
          ⟨fun _ => 0, 0⟩ 9 [])).1.tr.drop
        (RpuReceiverDdr.RxMachine.mk ⟨RpuReceiverDdr.MAGIC_START, 64, 7, 0, fun _ => 0⟩
          ⟨fun _ => 0, 0⟩ 9 []).tr.length) = true := by
  have h := c2_receiver_start_order
    (RpuReceiverDdr.RxMachine.mk ⟨RpuReceiverDdr.MAGIC_START, 64, 7, 0, fun _ => 0⟩
      ⟨fun _ => 0, 0⟩ 9 []) rfl
  exact ⟨rfl, h.2.2.2.1, h.2.1⟩

/-! ## Remaining helper lemmas -/

theorem countP_add_countP_not {α : Type} (p : α → Bool) (l : List α) :
    l.countP p + l.countP (fun a => !p a) = l.length := by
  induction l with
  | nil => rfl
  | cons a l ih =>
    simp only [List.countP_cons, List.length_cons]
    by_cases h : p a = true <;> simp [h] <;> omega

theorem run_iters_go (timeout : Nat) (scheds : List (Nat → Nat)) :
    ∀ a b : Nat,
      scheds.foldl
        (fun tf obs =>
          if ApuSenderDdr.wait_for_ack obs timeout = 0 then (tf.1 + 1, tf.2)
          else (tf.1, tf.2 + 1)) (a, b) =
      (a + scheds.countP (fun obs => ApuSenderDdr.wait_for_ack obs timeout == 0),
        b + scheds.countP (fun obs => !(ApuSenderDdr.wait_for_ack obs timeout == 0))) := by
  induction scheds with
  | nil => intro a b; simp
  | cons obs scheds ih =>
    intro a b
    simp only [List.foldl_cons, List.countP_cons]
    by_cases h : ApuSenderDdr.wait_for_ack obs timeout = 0
    · rw [if_pos h, ih (a + 1) b]
      simp only [Prod.mk.injEq, h]
      constructor <;> simp <;> omega
    · rw [if_neg h, ih a (b + 1)]
      simp only [Prod.mk.injEq]
      constructor <;> simp [h] <;> omega

/-- `TcmApp.send_packet`'s return code on a well-sized packet is decided by
its `wait_for_done` poll alone. -/
theorem tcm_send_packet_code (m : TcmMachine) (size : Nat) (payload : Nat → Nat)
    (ts : Nat) (obs : Nat → Nat) (hsize : size ≤ 4096) :
    (TcmApp.send_packet m size payload ts obs).2 =
      if TcmApp.wait_for_done obs 10000 = 0 then 0 else -1 := by
  unfold TcmApp.send_packet
  rw [if_neg (by omega)]
  by_cases h : TcmApp.wait_for_done obs 10000 = 0
  · simp [h]
  · simp [h]

theorem tcmRunIters_go (size : Nat) (payload : Nat → Nat) (ts : Nat)
    (hsize : size ≤ 4096) (scheds : List (Nat → Nat)) :
    ∀ (m : TcmMachine) (a b : Nat),
      (scheds.foldl
        (fun acc obs =>
          if (TcmApp.send_packet acc.1 size payload ts obs).2 = 0 then
            ((TcmApp.send_packet acc.1 size payload ts obs).1, acc.2.1 + 1, acc.2.2)
          else ((TcmApp.send_packet acc.1 size payload ts obs).1, acc.2.1, acc.2.2 + 1))
        (m, a, b)).2 =
      (a + scheds.countP (fun obs => TcmApp.wait_for_done obs 10000 == 0),
        b + scheds.countP (fun obs => !(TcmApp.wait_for_done obs 10000 == 0))) := by
  induction scheds with
  | nil => intro m a b; simp
  | cons obs scheds ih =>
    intro m a b
    simp only [List.foldl_cons, List.countP_cons]
    have hcode := tcm_send_packet_code m size payload ts obs hsize
    by_cases h : TcmApp.wait_for_done obs 10000 = 0
    · rw [hcode, if_pos h, if_pos rfl, ih _ (a + 1) b]
      simp only [Prod.mk.injEq, h]
      constructor <;> simp <;> omega
    · rw [hcode, if_neg h, if_neg (by decide), ih _ a (b + 1)]
      simp only [Prod.mk.injEq]
      constructor <;> simp [h] <;> omega

theorem drainFrom_eq (mem : Nat → Nat) :
    ∀ remaining i,
      TcmApp.drainFrom mem remaining i =
        ((List.range' i remaining).filterMap fun k =>
            if mem (1 + k * 5 + 4) = TcmApp.VALID_MARKER then
              some (mem (1 + k * 5), mem (1 + k * 5 + 1), mem (1 + k * 5 + 2),
                mem (1 + k * 5 + 3))
            else none,
          (List.range' i remaining).flatMap fun k =>
            [1 + k * 5, 1 + k * 5 + 1, 1 + k * 5 + 2, 1 + k * 5 + 3, 1 + k * 5 + 4]) := by
  intro remaining
  induction remaining with
  | zero => intro i; rfl
  | succ n ih =>
    intro i
    have hr : List.range' i (n + 1) = i :: List.range' (i + 1) n := rfl
    rw [hr]
    show TcmApp.drainFrom mem (n + 1) i = _
    unfold TcmApp.drainFrom
    rw [ih (i + 1)]
    by_cases h : mem (1 + i * 5 + 4) = TcmApp.VALID_MARKER
    · simp [h]
    · simp [h]

/-- Shared concrete machine for the closed TCM-sender theorems. -/
def tcm0 : TcmMachine := ⟨⟨0, 0, 0, 0, 0, fun _ => 0⟩, []⟩

/-- Shared concrete machine for the closed DDR-sender theorems. -/
def ddr0 : ApuSenderDdr.TxMachine := ⟨⟨0, 0, 0, 0, fun _ => 0⟩, []⟩

/-- One complete exchange of the DDR measurement pair: the sender's write
phase, then one receiver poll iteration over the region the sender left
behind.  Returns the sender machine, the receiver machine, and the
receiver's loop-break flag. -/
def ddrExchange (sh : Shared) (log : RpuReceiverDdr.ResultsLog) (size : Nat)
    (payload : Nat → Nat) (ts t : Nat) :
    ApuSenderDdr.TxMachine × RpuReceiverDdr.RxMachine × Bool :=
  (ApuSenderDdr.sendWritePhase ⟨sh, []⟩ size payload ts,
    RpuReceiverDdr.receiverPollStep
      ⟨(ApuSenderDdr.sendWritePhase ⟨sh, []⟩ size payload ts).sh, log, t, []⟩)

/-- A concrete results region for the C8 witness: header count 2, record 0
validly marked, record 1 carrying a corrupted marker. -/
def c8mem : Nat → Nat := fun n =>
  if n = 0 then 2
  else if n = 5 then 0xA5A5A5A5
  else if n = 10 then 0xBADBAD
  else 0

/-! ## Claim theorems (second batch) -/

/-- **C3 (counterexample).** The plain TCM sender (`apu_sender_tcm.c`,
`send_packet` lines 203-249) does not poll for any ACK: on a well-sized
packet it returns success (`0`) unconditionally — its trace contains no read
of a shared word at all, so no ACK could even be observed and no timeout
failure can ever be counted. -/
theorem c3_tcm_sender_no_ack_poll :
    (ApuSenderTcm.send_packet tcm0 64 (fun _ => 3) 10 20).2.1 = 0 ∧
    ((ApuSenderTcm.send_packet tcm0 64 (fun _ => 3) 10 20).1.tr.filter
      Ev.isSharedRead) = [] ∧
    (ApuSenderTcm.send_packet tcm0 64 (fun _ => 3) 10 20).1.tr =
      [.copyPayload 64, .writeWord 1 64, .timerRead 10, .writeWord 2 10, .barrier,
        .writeWord 0 ApuSenderTcm.CMD_PROCESS, .timerRead 20, .sleep 100,
        .writeWord 0 ApuSenderTcm.CMD_IDLE] :=
  ⟨rfl, rfl, rfl⟩

/-- **C3 (amended).** For both ACK-observing senders.  DDR sender
(`apu_sender_ddr.c`): `wait_for_ack` returns success exactly when some poll
within the timeout reads `MAGIC_ACK`; over a run, every packet is attempted
exactly once (successes and failures sum to the number of iterations) and
each timed-out packet is counted as failed — there is no retry.  TCM app
(`rpu_receiver_tcm.c`): `wait_for_done` returns success exactly when some
poll within the timeout reads `STATUS_DONE`; a well-sized `send_packet`
whose polls never observe `STATUS_DONE` within the timeout returns `-1`;
and over a run each packet is attempted exactly once, with every timed-out
packet counted as failed and no retry.  (The plain TCM sender performs no
ACK wait at all; see the counterexample.) -/
theorem c3_ack_timeout_policy (timeout size : Nat) (payload : Nat → Nat)
    (ts : Nat) (m : TcmMachine) (scheds tscheds : List (Nat → Nat))
    (hsize : size ≤ 4096) :
    (∀ obs, ApuSenderDdr.wait_for_ack obs timeout = 0 ↔
      ∃ i, i < timeout ∧ obs i = ApuSenderDdr.MAGIC_ACK) ∧
    (run_iters timeout scheds).1 + (run_iters timeout scheds).2 = scheds.length ∧
    (run_iters timeout scheds).2 =
      (scheds.countP fun obs => !(ApuSenderDdr.wait_for_ack obs timeout == 0)) ∧
    (∀ obs, TcmApp.wait_for_done obs timeout = 0 ↔
      ∃ i, i < timeout ∧ obs i = TcmApp.STATUS_DONE) ∧
    (∀ obs, (∀ i, i < 10000 → obs i ≠ TcmApp.STATUS_DONE) →
      (TcmApp.send_packet m size payload ts obs).2 = -1) ∧
    (tcmRunIters size payload ts m tscheds).2.1 +
        (tcmRunIters size payload ts m tscheds).2.2 = tscheds.length ∧
    (tcmRunIters size payload ts m tscheds).2.2 =
      tscheds.countP fun obs => !(TcmApp.wait_for_done obs 10000 == 0) := by
  refine ⟨fun obs => pollWord_eq_zero_iff _ _ _, ?_, ?_,
    fun obs => pollWord_eq_zero_iff _ _ _, ?_, ?_, ?_⟩
  · rw [run_iters, run_iters_go]
    simpa using countP_add_countP_not
      (fun obs => ApuSenderDdr.wait_for_ack obs timeout == 0) scheds
  · rw [run_iters, run_iters_go]
    simp
  · intro obs hno
    rw [tcm_send_packet_code m size payload ts obs hsize]
    rw [if_neg fun hz => by
      obtain ⟨i, hi, hobs⟩ := (pollWord_eq_zero_iff _ _ _).mp hz
      exact hno i hi hobs]
  · rw [tcmRunIters, tcmRunIters_go size payload ts hsize]
    simpa using countP_add_countP_not
      (fun obs => TcmApp.wait_for_done obs 10000 == 0) tscheds
  · rw [tcmRunIters, tcmRunIters_go size payload ts hsize]
    simp

/-- Witness for the amended C3 at a concrete well-sized packet whose polls
never observe an ACK: the TCM app's `send_packet` fails with `-1`. -/
theorem c3_ack_timeout_policy_witness :
    (64 : Nat) ≤ 4096 ∧
    (TcmApp.send_packet tcm0 64 (fun _ => 0) 5 fun _ => 0).2 = -1 := by
  have h := c3_ack_timeout_policy 10000 64 (fun _ => 0) 5 tcm0 [] [] (by omega)
  exact ⟨by omega, h.2.2.2.2.1 (fun _ => 0) fun i _ => by simp [TcmApp.STATUS_DONE]⟩

/-- **C5.** The coherence-test pair does not share its sentinel: the APU
writes `MAGIC_VALUE = 0xF0F0F0F0` while the RPU compares the shared word
against its own `MAGIC_VALUE = 0xCAFEBABE`, so the RPU loop never produces
the `0xDEADBEEF` response (word 1 stays 0 and word 0 keeps the APU value).
The response constant itself agrees between the two files. -/
theorem c5_coherency_magic_mismatch :
    ApuCoherency.MAGIC_VALUE ≠ RpuCoherency.MAGIC_VALUE ∧
    ApuCoherency.RESPONSE = RpuCoherency.RESPONSE ∧
    rpuCoherencyStep (apuCoherencyWrite fun _ => 0) 1 = 0 ∧
    rpuCoherencyStep (apuCoherencyWrite fun _ => 0) 0 = ApuCoherency.MAGIC_VALUE :=
  ⟨by decide, rfl, rfl, rfl⟩

/-- **C6 (counterexample).** The DDR sender never resets the control word to
an IDLE value: in a successfully acknowledged `send_packet` the only
control-word write it makes is `MAGIC_START`, and after the ACK the control
word (as far as the sender's writes go) still holds `MAGIC_START` — no
IDLE write exists in this variant. -/
theorem c6_ddr_sender_never_writes_idle :
    (ApuSenderDdr.send_packet ddr0 64 (fun _ => 3) 5 fun _ => ApuSenderDdr.MAGIC_ACK).2 = 0 ∧
    ((ApuSenderDdr.send_packet ddr0 64 (fun _ => 3) 5
        fun _ => ApuSenderDdr.MAGIC_ACK).1.tr.filter Ev.isCtrlWrite) =
      [.writeWord 0 ApuSenderDdr.MAGIC_START] ∧
    (ApuSenderDdr.send_packet ddr0 64 (fun _ => 3) 5
        fun _ => ApuSenderDdr.MAGIC_ACK).1.sh.ctrl = ApuSenderDdr.MAGIC_START :=
  ⟨(pollWord_eq_zero_iff _ _ _).mpr ⟨0, by omega, rfl⟩, rfl, rfl⟩

/-- **C6 (amended).** In the ACK-observing TCM sender
(`rpu_receiver_tcm.c`), a `send_packet` whose `wait_for_done` succeeds
within the timeout returns 0 and resets `command` to `CMD_IDLE` before
returning (the last shared write of its trace); the DDR sender instead
performs no IDLE reset at all (see the counterexample). -/
theorem c6_tcm_sender_idle_reset (m : TcmMachine) (size : Nat)
    (payload : Nat → Nat) (ts : Nat) (obs : Nat → Nat)
    (hsize : size ≤ 4096) (hack : ∃ i, i < 10000 ∧ obs i = TcmApp.STATUS_DONE) :
    (TcmApp.send_packet m size payload ts obs).2 = 0 ∧
    (TcmApp.send_packet m size payload ts obs).1.proto.command = TcmApp.CMD_IDLE ∧
    ∃ l, (TcmApp.send_packet m size payload ts obs).1.tr =
      l ++ [.writeWord 0 TcmApp.CMD_IDLE] := by
  have hw : TcmApp.wait_for_done obs 10000 = 0 :=
    (pollWord_eq_zero_iff _ _ _).mpr hack
  unfold TcmApp.send_packet
  rw [if_neg (by omega)]
  simp only [hw, if_pos rfl]
  refine ⟨rfl, rfl, ?_⟩
  exact ⟨_, rfl⟩

/-- Witness for the amended C6 at a concrete packet whose first poll
observes `STATUS_DONE`. -/
theorem c6_tcm_sender_idle_reset_witness :
    (64 : Nat) ≤ 4096 ∧
    (∃ i, i < 10000 ∧ (fun _ : Nat => TcmApp.STATUS_DONE) i = TcmApp.STATUS_DONE) ∧
    (TcmApp.send_packet tcm0 64 (fun _ => 3) 5 fun _ => TcmApp.STATUS_DONE).2 = 0 ∧
    (TcmApp.send_packet tcm0 64 (fun _ => 3) 5
      fun _ => TcmApp.STATUS_DONE).1.proto.command = TcmApp.CMD_IDLE := by
  have h := c6_tcm_sender_idle_reset tcm0 64 (fun _ => 3) 5
    (fun _ => TcmApp.STATUS_DONE) (by omega) ⟨0, by omega, rfl⟩
  exact ⟨by omega, ⟨0, by omega, rfl⟩, h.1, h.2.1⟩

/-- **C7.** A results drain that reads a header count of 0 or above
`MAX_RESULTS` reports the run as invalid: it returns `-1`, emits no
records, and reads no word beyond the header. -/
theorem c7_invalid_count_drain (mem : Nat → Nat)
    (h : mem 0 = 0 ∨ TcmApp.MAX_RESULTS < mem 0) :
    TcmApp.read_results mem = (-1, [], [0]) := by
  unfold TcmApp.read_results
  rw [if_pos h]

/-- Witness for C7 on an all-zero results region (count 0). -/
theorem c7_invalid_count_drain_witness :
    ((fun _ : Nat => (0 : Nat)) 0 = 0 ∨ TcmApp.MAX_RESULTS < (fun _ : Nat => (0 : Nat)) 0) ∧
    TcmApp.read_results (fun _ => 0) = (-1, [], [0]) :=
  ⟨Or.inl rfl, c7_invalid_count_drain (fun _ => 0) (Or.inl rfl)⟩

/-- **C8.** On a valid header count, the drain returns 0 (never fatal),
emits exactly the records whose validity marker equals `0xA5A5A5A5`
(mismatching records are skipped), and still reads every word of every one
of the `count` records — a corrupt marker does not stop the remaining
records from being processed. -/
theorem c8_marker_mismatch_skip (mem : Nat → Nat)
    (h0 : mem 0 ≠ 0) (h1 : mem 0 ≤ TcmApp.MAX_RESULTS) :
    (TcmApp.read_results mem).1 = 0 ∧
    (TcmApp.read_results mem).2.1 =
      ((List.range (mem 0)).filterMap fun k =>
        if mem (1 + k * 5 + 4) = TcmApp.VALID_MARKER then
          some (mem (1 + k * 5), mem (1 + k * 5 + 1), mem (1 + k * 5 + 2),
            mem (1 + k * 5 + 3))
        else none) ∧
    (TcmApp.read_results mem).2.2 =
      0 :: ((List.range (mem 0)).flatMap fun k =>
        [1 + k * 5, 1 + k * 5 + 1, 1 + k * 5 + 2, 1 + k * 5 + 3, 1 + k * 5 + 4]) := by
  unfold TcmApp.read_results
  rw [if_neg (by rintro (hc | hc); exact h0 hc; omega)]
  rw [drainFrom_eq, List.range_eq_range']
  exact ⟨rfl, rfl, rfl⟩

/-- Witness for C8: two records, the first validly marked, the second with
a corrupt marker — exactly one record is emitted and the return code is
still 0. -/
theorem c8_marker_mismatch_skip_witness :
    c8mem 0 ≠ 0 ∧ c8mem 0 ≤ TcmApp.MAX_RESULTS ∧
    (TcmApp.read_results c8mem).1 = 0 ∧
    (TcmApp.read_results c8mem).2.1 = [(0, 0, 0, 0)] := by
  have h := c8_marker_mismatch_skip c8mem (by decide) (by decide)
  exact ⟨by decide, by decide, h.1, by decide⟩

/-- **C9.** A zero-size packet completes the full handshake: the sender
copies nothing into the payload area (the payload bytes are untouched and
no copy event exists), the receiver's payload invalidation covers zero
bytes, yet the receiver acknowledges (`MAGIC_ACK`), appends exactly one
validly-marked result record, and the sender's subsequent ACK poll
succeeds. -/
theorem c9_zero_size_packet (sh : Shared) (log : RpuReceiverDdr.ResultsLog)
    (payload : Nat → Nat) (ts t : Nat)
    (hc : log.count < RpuReceiverDdr.MAX_RESULTS) :
    (∀ i, (ddrExchange sh log 0 payload ts t).1.sh.data i = sh.data i) ∧
    (∀ n, Ev.copyPayload n ∉ (ddrExchange sh log 0 payload ts t).1.tr) ∧
    (ddrExchange sh log 0 payload ts t).2.1.tr =
      [.invRange 0 64, .readWord 0 RpuReceiverDdr.MAGIC_START, .invRange 0 256,
        .readWord 1 0, .readWord 2 ts, .invRange 16 0, .barrier, .timerRead t,
        .append 0 ts t, .writeWord 0 RpuReceiverDdr.MAGIC_ACK, .flushRange 0 64] ∧
    (ddrExchange sh log 0 payload ts t).2.1.sh.ctrl = RpuReceiverDdr.MAGIC_ACK ∧
    (ddrExchange sh log 0 payload ts t).2.1.log.count = log.count + 1 ∧
    (ddrExchange sh log 0 payload ts t).2.1.log.buf (1 + log.count * 5 + 4) =
      RpuReceiverDdr.VALID_MARKER ∧
    ApuSenderDdr.wait_for_ack
      (fun _ => (ddrExchange sh log 0 payload ts t).2.1.sh.ctrl) 10000 = 0 := by
  have hx : ddrExchange sh log 0 payload ts t =
      (ApuSenderDdr.sendWritePhase ⟨sh, []⟩ 0 payload ts,
        RpuReceiverDdr.receiverHandleStart
          { (⟨(ApuSenderDdr.sendWritePhase ⟨sh, []⟩ 0 payload ts).sh, log, t, []⟩ :
              RpuReceiverDdr.RxMachine) with
            tr := ([] : List Ev) ++ [.invRange 0 64]
              ++ [.readWord 0 RpuReceiverDdr.MAGIC_START] },
        false) := by
    unfold ddrExchange
    rw [RpuReceiverDdr.receiverPollStep_start _ rfl]
  have htx : (ddrExchange sh log 0 payload ts t).1.tr =
      [.writeWord 1 0, .timerRead ts, .writeWord 2 ts, .writeWord 3 0, .barrier,
        .writeWord 0 ApuSenderDdr.MAGIC_START] := rfl
  refine ⟨fun i => rfl, ?_, ?_, ?_, ?_, ?_, ?_⟩
  · intro n
    rw [htx]
    simp
  · rw [hx]
    rfl
  · rw [hx]
    rfl
  · rw [hx]
    have h := RpuReceiverDdr.store_result_count log 0 ts t
    rw [if_neg (Nat.not_le.mpr hc)] at h
    exact h
  · rw [hx]
    exact RpuReceiverDdr.store_result_marker log 0 ts t hc
  · rw [hx]
    exact (pollWord_eq_zero_iff _ _ _).mpr ⟨0, by omega, rfl⟩

/-- Witness for C9 at a concrete shared region and empty log. -/
theorem c9_zero_size_packet_witness :
    (RpuReceiverDdr.ResultsLog.mk (fun _ => 0) 0).count < RpuReceiverDdr.MAX_RESULTS ∧
    (ddrExchange ⟨0, 0, 0, 0, fun _ => 0⟩ (RpuReceiverDdr.ResultsLog.mk (fun _ => 0) 0)
        0 (fun _ => 0) 5 9).2.1.sh.ctrl = RpuReceiverDdr.MAGIC_ACK ∧
    (ddrExchange ⟨0, 0, 0, 0, fun _ => 0⟩ (RpuReceiverDdr.ResultsLog.mk (fun _ => 0) 0)
        0 (fun _ => 0) 5 9).2.1.log.count =
      (RpuReceiverDdr.ResultsLog.mk (fun _ => 0) 0).count + 1 := by
  have h := c9_zero_size_packet ⟨0, 0, 0, 0, fun _ => 0⟩
    (RpuReceiverDdr.ResultsLog.mk (fun _ => 0) 0) (fun _ => 0) 5 9 (by decide)
  exact ⟨by decide, h.2.2.2.1, h.2.2.2.2.1⟩

end RTSIA
